import Mathlib

/-!
Shallow embedding of the concurrency, rate-limiting, proxy-management and
scheduling components of the arkimedes web-scrape backend, together with
theorems settling the specification claims about them.

Python dictionaries are modelled as association lists (insertion order is
the iteration order, as in CPython), resources and browser objects as
natural-number tokens, wall-clock time as an explicit parameter, and raised
exceptions as an explicit `PyResult` outcome carried next to the mutated
state (a Python exception leaves prior mutations in place).
-/

deriving instance DecidableEq for Except

namespace Arkimedes

/-- Outcome of a Python call: a normal return value or a raised exception. -/
inductive PyResult (α : Type) where
  | ok (a : α)
  | exn (msg : String)
deriving DecidableEq, Repr

/-- Association-list model of a Python dict (keys unique, insertion ordered). -/
abbrev Dict (α β : Type) := List (α × β)

/-- Lookup in a dict model. -/
def dictFind [DecidableEq α] (k : α) : Dict α β → Option β
  | [] => none
  | (k', v) :: rest => if k' = k then some v else dictFind k rest

/-- Python `d[k] = v`: replace the binding if present, else append. -/
def dictInsert [DecidableEq α] (k : α) (v : β) : Dict α β → Dict α β
  | [] => [(k, v)]
  | (k', v') :: rest => if k' = k then (k, v) :: rest else (k', v') :: dictInsert k v rest

/-- Python `d.pop(k)`: drop the binding for `k` if present. -/
def dictRemove [DecidableEq α] (k : α) : Dict α β → Dict α β
  | [] => []
  | (k', v') :: rest => if k' = k then rest else (k', v') :: dictRemove k rest

/-- In-place mutation of the value stored under `k` (Python mutates the
value object; the dict itself is untouched). -/
def dictUpdate [DecidableEq α] (k : α) (f : β → β) : Dict α β → Dict α β
  | [] => []
  | (k', v) :: rest =>
      if k' = k then (k', f v) :: dictUpdate k f rest
      else (k', v) :: dictUpdate k f rest

/-- Python `s.add(x)` on a set modelled as a duplicate-free list. -/
def setAdd [DecidableEq α] (x : α) (s : List α) : List α :=
  if x ∈ s then s else x :: s

/-! ### ResourcePool (src/backend/src/utils/concurrency.py)

`asyncio.Semaphore` is unbounded: `release()` increments the counter with no
upper cap.  `acquire` is modelled deterministically for a single execution
context: the semaphore wait succeeds immediately when the counter is
positive, and times out otherwise (no concurrent release arrives within the
timeout).  On the timeout path the code raises `TimeoutError`, which the
outer `except` block catches, releases the semaphore, and re-raises. -/

structure ResourcePool where
  maxSize : Nat
  /-- Current `asyncio.Semaphore` counter. -/
  semValue : Nat
  /-- The `_resources` idle set (resource object tokens). -/
  idle : List Nat
  /-- The `_in_use` dict: `resource_id` (a `str` or `None`) to resource. -/
  inUse : Dict (Option String) Nat
  /-- Fresh-token counter standing for `_create_resource()` allocations. -/
  nextRes : Nat
deriving DecidableEq, Repr

/-- A freshly constructed pool of capacity `maxSize`. -/
def ResourcePool.init (maxSize : Nat) : ResourcePool :=
  ⟨maxSize, maxSize, [], [], 0⟩

/-- Result of `ResourcePool.acquire`: the resource and new pool state, or a
propagated `TimeoutError` together with the (mutated) pool state. -/
inductive AcquireOutcome where
  | ok (resource : Nat) (pool : ResourcePool)
  | timeout (pool : ResourcePool)
deriving DecidableEq, Repr

/-- `ResourcePool.acquire(timeout, resource_id)`.  When the semaphore counter
is zero the wait times out; the `except Exception` handler then calls
`self._semaphore.release()` — incrementing a counter that was never
decremented — and re-raises.  On success the counter is decremented, an idle
resource is popped (or a new one created) and recorded in `_in_use` under
`resource_id`. -/
def ResourcePool.acquire (p : ResourcePool) (rid : Option String) : AcquireOutcome :=
  if p.semValue = 0 then
    .timeout { p with semValue := p.semValue + 1 }
  else
    let p1 : ResourcePool := { p with semValue := p.semValue - 1 }
    match p1.idle with
    | r :: rest =>
        .ok r { p1 with idle := rest, inUse := dictInsert rid r p1.inUse }
    | [] =>
        .ok p1.nextRes
          { p1 with nextRes := p1.nextRes + 1
                    inUse := dictInsert rid p1.nextRes p1.inUse }

/-- `ResourcePool.release(resource, resource_id)`: returns `False` when
`resource_id` is not in `_in_use`; otherwise removes the entry, returns the
passed resource to the idle set (`_validate_resource` always holds in the
base class), releases the semaphore and returns `True`. -/
def ResourcePool.release (p : ResourcePool) (resource : Nat) (rid : Option String) :
    Bool × ResourcePool :=
  match dictFind rid p.inUse with
  | none => (false, p)
  | some _ =>
      let p1 : ResourcePool := { p with inUse := dictRemove rid p.inUse }
      let p2 : ResourcePool := { p1 with idle := setAdd resource p1.idle }
      (true, { p2 with semValue := p2.semValue + 1 })

/-! ### TaskPool (src/backend/src/utils/concurrency.py) -/

structure TaskPool where
  pool : ResourcePool
  /-- The `_task_metadata` dict: task id to the resource held for it. -/
  metadata : Dict String Nat
deriving DecidableEq, Repr

/-- A freshly constructed task pool. -/
def TaskPool.init (maxConcurrentTasks : Nat) : TaskPool :=
  ⟨ResourcePool.init maxConcurrentTasks, []⟩

/-- The `try` body of `TaskPool.acquire`: raises `ValueError` on a falsy
task id, returns `False` on a duplicate id, propagates the pool's
`TimeoutError` (keeping its state mutation), and on success records the
task metadata and returns `True`. -/
def TaskPool.acquireBody (tp : TaskPool) (taskId : String) : PyResult Bool × TaskPool :=
  if taskId = "" then (.exn "ValueError: Task ID is required", tp)
  else if (dictFind taskId tp.metadata).isSome then (.ok false, tp)
  else
    match tp.pool.acquire (some taskId) with
    | .timeout p1 => (.exn "TimeoutError", { tp with pool := p1 })
    | .ok r p1 =>
        (.ok true, { pool := p1, metadata := dictInsert taskId r tp.metadata })

/-- `TaskPool.acquire`: the surrounding `except Exception` turns every raised
exception into a `False` return, keeping whatever state mutation already
happened. -/
def TaskPool.acquire (tp : TaskPool) (taskId : String) : Bool × TaskPool :=
  match tp.acquireBody taskId with
  | (.ok b, tp1) => (b, tp1)
  | (.exn _, tp1) => (false, tp1)

/-- `TaskPool.release(task_id)`: `False` for an unknown task id; otherwise
pops the metadata and releases the underlying pool slot, returning the
pool's verdict. -/
def TaskPool.release (tp : TaskPool) (taskId : String) : Bool × TaskPool :=
  match dictFind taskId tp.metadata with
  | none => (false, tp)
  | some r =>
      let tp1 : TaskPool := { tp with metadata := dictRemove taskId tp.metadata }
      let (ok, p1) := tp1.pool.release r (some taskId)
      (ok, { tp1 with pool := p1 })

/-! ### RateLimitMiddleware (src/backend/src/scraper/middleware/rate_limit.py)

The Redis counter for one rate-limit key is modelled as `Option RLEntry`:
`none` when the key is absent (never set, or its `setex` TTL has lapsed),
`some ⟨count, expiry⟩` otherwise.  Wall-clock time is a natural number of
seconds.  Whether the counter store is reachable is the explicit `cacheOk`
argument; when it is `false` the `await ... eval` raises and the `except`
branch runs. -/

structure RLConfig where
  rateLimit : Nat
  window : Nat
  burstMult : ℚ
deriving DecidableEq, Repr

/-- `burst_limit = int(rate_limit * (1 + burst_multiplier))`. -/
def RLConfig.burstLimit (c : RLConfig) : Nat :=
  (⌊(c.rateLimit : ℚ) * (1 + c.burstMult)⌋).toNat

/-- Stored counter state for one key: current count and absolute expiry. -/
structure RLEntry where
  count : Nat
  expiry : Nat
deriving DecidableEq, Repr

/-- Return value of `check_rate_limit`: `(is_allowed, remaining, backoff)`. -/
structure RLOutcome where
  allowed : Bool
  remaining : Nat
  backoff : Option ℚ
deriving DecidableEq, Repr

/-- The Lua script evaluated atomically on Redis: a missing (or expired) key
is set to `1` with TTL `window` and the call is admitted returning
`ARGV[1] = burst_limit` as `remaining`; a live key below `burst_limit` is
incremented and admitted; otherwise the call is rejected with `{0, 0}`. -/
def rateLua (bl window now : Nat) : Option RLEntry → (Bool × Nat) × Option RLEntry
  | none => ((true, bl), some ⟨1, now + window⟩)
  | some e =>
      if e.expiry ≤ now then ((true, bl), some ⟨1, now + window⟩)
      else if e.count < bl then ((true, bl - e.count), some ⟨e.count + 1, e.expiry⟩)
      else ((false, 0), some e)

/-- `DEFAULT_WINDOW_SECONDS`. -/
def DEFAULT_WINDOW_SECONDS : Nat := 60

/-- `RateLimitMiddleware.check_rate_limit` for one key.  Returns the
outcome, the new counter state and the new `rate_limit_errors` metric.
When the cache is unreachable, and likewise when the rejection branch
divides by a zero `burst_limit` (`remaining/burst_limit` raises
`ZeroDivisionError`), the `except Exception` branch increments the error
metric and returns `(False, 0, DEFAULT_WINDOW_SECONDS)` — the code comment
reads "Fail closed on errors". -/
def checkRateLimit (c : RLConfig) (cacheOk : Bool) (now : Nat)
    (st : Option RLEntry) (errCount : Nat) : RLOutcome × Option RLEntry × Nat :=
  if cacheOk then
    let bl := c.burstLimit
    let res := rateLua bl c.window now st
    let allowed := res.1.1
    let remaining := res.1.2
    let st1 := res.2
    if allowed then (⟨true, remaining, none⟩, st1, errCount)
    else if bl = 0 then
      (⟨false, 0, some (DEFAULT_WINDOW_SECONDS : ℚ)⟩, st1, errCount + 1)
    else
      (⟨false, 0,
        some (min ((c.window : ℚ) * (1 - (remaining : ℚ) / (bl : ℚ))) 300)⟩,
       st1, errCount)
  else (⟨false, 0, some (DEFAULT_WINDOW_SECONDS : ℚ)⟩, st, errCount + 1)

/-- Run a sequence of `check_rate_limit` calls (cache reachable) at the
given times, collecting the `allowed` verdicts and the final counter
state. -/
def runChecks (c : RLConfig) : List Nat → Option RLEntry → List Bool × Option RLEntry
  | [], st => ([], st)
  | t :: ts, st =>
      let step := checkRateLimit c true t st 0
      let rest := runChecks c ts step.2.1
      (step.1.allowed :: rest.1, rest.2)

/-- Number of admitted calls in a sequence of `check_rate_limit` calls. -/
def allowedCount (c : RLConfig) : List Nat → Option RLEntry → Nat
  | [], _ => 0
  | t :: ts, st =>
      let step := checkRateLimit c true t st 0
      (if step.1.allowed then 1 else 0) + allowedCount c ts step.2.1

/-! ### ProxyService (src/backend/src/services/proxy.py)

Timestamps (`time.time()`) are modelled as natural-number seconds; scores
and latencies as rationals.  The `_proxy_metrics` and `_circuit_breakers`
dicts share their keys (entries are always added and removed together), so
they are modelled as one association list from proxy url to the pair. -/

/-- `PROXY_SUCCESS_THRESHOLD = 0.95`. -/
def PROXY_SUCCESS_THRESHOLD : ℚ := mkRat 95 100

/-- `PROXY_CIRCUIT_BREAKER_THRESHOLD = 0.85`. -/
def PROXY_CIRCUIT_BREAKER_THRESHOLD : ℚ := mkRat 85 100

/-- Per-proxy metrics (`@dataclass ProxyMetrics`, with its field defaults). -/
structure ProxyMetrics where
  successCount : Nat
  failureCount : Nat
  totalLatency : ℚ
  lastUsed : Nat
  lastSuccess : Nat
  healthScore : ℚ
deriving DecidableEq, Repr

/-- The dataclass defaults: counts `0`, times `0.0`, health score `1.0`. -/
def ProxyMetrics.fresh : ProxyMetrics := ⟨0, 0, 0, 0, 0, 1⟩

/-- Modelled from the spec: the circuit breaker used per proxy comes from
the external `circuit_breaker` package, whose source is not part of this
repository.  The spec describes it as: "states Closed → Open → HalfOpen →
Closed; transitions: Closed→Open after `failure_threshold`
consecutive/windowed failures; Open→HalfOpen after `recovery_timeout`
elapses; HalfOpen→Closed on first success, HalfOpen→Open on failure."
`openedAt = some t` records the moment the breaker last opened; the breaker
reports itself Open while `recovery_timeout` has not yet elapsed since. -/
structure CircuitBreaker where
  failureThreshold : ℚ
  recoveryTimeout : Nat
  consecFailures : Nat
  openedAt : Option Nat
deriving DecidableEq, Repr

/-- Modelled from the spec: Open state lasts from the opening failure until
`recovery_timeout` elapses (after that the breaker is HalfOpen, which is
not Open). -/
def CircuitBreaker.isOpen (cb : CircuitBreaker) (now : Nat) : Bool :=
  match cb.openedAt with
  | none => false
  | some t0 => decide (now < t0 + cb.recoveryTimeout)

/-- Modelled from the spec: a failure increments the consecutive-failure
count and opens the breaker once the count reaches `failure_threshold`. -/
def CircuitBreaker.recordFailure (cb : CircuitBreaker) (now : Nat) : CircuitBreaker :=
  let n := cb.consecFailures + 1
  if cb.failureThreshold ≤ (n : ℚ) then
    { cb with consecFailures := n, openedAt := some now }
  else { cb with consecFailures := n }

/-- Modelled from the spec: a success closes the breaker and resets the
consecutive-failure count. -/
def CircuitBreaker.recordSuccess (cb : CircuitBreaker) : CircuitBreaker :=
  { cb with consecFailures := 0, openedAt := none }

/-- The breaker `_add_proxy` constructs:
`CircuitBreaker(failure_threshold=PROXY_CIRCUIT_BREAKER_THRESHOLD,
recovery_timeout=300)`. -/
def mkProxyBreaker : CircuitBreaker :=
  ⟨PROXY_CIRCUIT_BREAKER_THRESHOLD, 300, 0, none⟩

structure ProxyService where
  poolSize : Nat
  proxies : Dict String (ProxyMetrics × CircuitBreaker)
deriving DecidableEq, Repr

/-- Apply an update to the metrics of `url` if tracked (both
`_record_success` and `_record_failure` are no-ops for untracked urls). -/
def ProxyService.updateMetrics (s : ProxyService) (url : String)
    (f : ProxyMetrics → ProxyMetrics) : ProxyService :=
  { s with proxies := dictUpdate url (fun p => (f p.1, p.2)) s.proxies }

/-- `_record_success`: bump the success count, accumulate latency, stamp
`last_success`, and recompute `health_score = success/(success+failure)`. -/
def ProxyMetrics.recSuccess (m : ProxyMetrics) (duration : ℚ) (now : Nat) : ProxyMetrics :=
  let s := m.successCount + 1
  { m with successCount := s
           totalLatency := m.totalLatency + duration
           lastSuccess := now
           healthScore := (s : ℚ) / ((s : ℚ) + (m.failureCount : ℚ)) }

/-- `_record_failure`: bump the failure count and recompute
`health_score = success/(success+failure)`. -/
def ProxyMetrics.recFailure (m : ProxyMetrics) : ProxyMetrics :=
  let f := m.failureCount + 1
  { m with failureCount := f
           healthScore := (m.successCount : ℚ) / ((m.successCount : ℚ) + (f : ℚ)) }

/-- `ProxyService._record_success` (also reached by `_check_proxy_health`
on a 200 health-check response). -/
def ProxyService.recordSuccess (s : ProxyService) (url : String) (duration : ℚ)
    (now : Nat) : ProxyService :=
  s.updateMetrics url (fun m => m.recSuccess duration now)

/-- `ProxyService._record_failure`. -/
def ProxyService.recordFailure (s : ProxyService) (url : String) : ProxyService :=
  s.updateMetrics url ProxyMetrics.recFailure

/-- `ProxyService._remove_proxy`: pop the url from both dicts. -/
def ProxyService.removeProxy (s : ProxyService) (url : String) : ProxyService :=
  { s with proxies := s.proxies.filter fun e => decide (e.1 ≠ url) }

/-- `_add_proxy`: rejected when `validate_proxy_url` fails (url parsing is
outside this model, so the verdict is the `valid` argument); otherwise a
fresh metrics record and breaker are installed for the url. -/
def ProxyService.addProxy (s : ProxyService) (url : String) (valid : Bool) : ProxyService :=
  if valid then
    { s with proxies := dictInsert url (ProxyMetrics.fresh, mkProxyBreaker) s.proxies }
  else s

/-- The healthy-proxy filter inside `get_proxy`: breaker not Open and
health score at least `PROXY_SUCCESS_THRESHOLD`. -/
def ProxyService.healthyProxies (s : ProxyService) (now : Nat) :
    Dict String (ProxyMetrics × CircuitBreaker) :=
  s.proxies.filter fun e =>
    !(e.2.2.isOpen now) && decide (PROXY_SUCCESS_THRESHOLD ≤ e.2.1.healthScore)

/-- Python `max(healthy_proxies, key=health_score)`: the first element
attaining the maximal score (a later element replaces the current best only
when strictly greater). -/
def pickBest : Dict String (ProxyMetrics × CircuitBreaker) →
    Option (String × ProxyMetrics × CircuitBreaker)
  | [] => none
  | x :: xs =>
      match pickBest xs with
      | none => some x
      | some y => if x.2.1.healthScore < y.2.1.healthScore then some y else some x

/-- `ProxyService.get_proxy`: filter, raise when no proxy qualifies, pick
the best survivor, stamp its `last_used`. -/
def ProxyService.getProxy (s : ProxyService) (now : Nat) :
    Except String (String × ProxyService) :=
  match pickBest (s.healthyProxies now) with
  | none => .error "No healthy proxies available"
  | some e => .ok (e.1, s.updateMetrics e.1 (fun m => { m with lastUsed := now }))

/-- The selection rule exactly as the spec words it, for comparison with
`ProxyService.getProxy`: highest health score among the survivors, ties
broken by least-recently-used. -/
def pickBestLRU : Dict String (ProxyMetrics × CircuitBreaker) →
    Option (String × ProxyMetrics × CircuitBreaker)
  | [] => none
  | x :: xs =>
      match pickBestLRU xs with
      | none => some x
      | some y =>
          if x.2.1.healthScore < y.2.1.healthScore then some y
          else if y.2.1.healthScore < x.2.1.healthScore then some x
          else if y.2.1.lastUsed < x.2.1.lastUsed then some y else some x

/-- `ProxyService.report_failure`: record the failure in the metrics, feed
the breaker, and remove the proxy from the pool outright when the breaker
reports Open; finally, if the pool is short, fetch a replacement from the
external Bright Data client — `replacement` is that client's response
(`none` when the call raises) and its url-validation verdict. -/
def ProxyService.reportFailure (s : ProxyService) (url : String) (now : Nat)
    (replacement : Option (String × Bool)) : ProxyService :=
  let s1 := s.recordFailure url
  let s2 :=
    match dictFind url s1.proxies with
    | none => s1
    | some (_, cb) =>
        let cb2 := cb.recordFailure now
        if cb2.isOpen now then s1.removeProxy url
        else { s1 with proxies := dictUpdate url (fun p => (p.1, cb2)) s1.proxies }
  if s2.proxies.length < s2.poolSize then
    match replacement with
    | some (newUrl, valid) => s2.addProxy newUrl valid
    | none => s2
  else s2

/-! ### BrowserManager (src/backend/src/scraper/browser/manager.py)

Browser objects are the resource tokens handed out by the pool; Python's
`str(id(browser))` is modelled by `browserIdOf`, an injective rendering of
the token. -/

/-- `str(id(browser))` for a browser object token. -/
def browserIdOf (browser : Nat) : String := toString browser

structure BrowserManager where
  pool : ResourcePool
  /-- The `_active_browsers` dict: browser id to browser object. -/
  activeBrowsers : Dict String Nat
deriving DecidableEq, Repr

/-- A freshly constructed manager over a pool of `poolSize` browsers. -/
def BrowserManager.init (poolSize : Nat) : BrowserManager :=
  ⟨ResourcePool.init poolSize, []⟩

/-- `BrowserManager.get_browser`: acquires from the pool — note the call
passes only `timeout`, so the pool records the slot under
`resource_id = None` — then registers the browser in `_active_browsers`
under `str(id(browser))`.  A pool timeout propagates (the manager's
`except` logs and re-raises). -/
def BrowserManager.getBrowser (bm : BrowserManager) : PyResult Nat × BrowserManager :=
  match bm.pool.acquire none with
  | .timeout p1 => (.exn "TimeoutError", { bm with pool := p1 })
  | .ok browser p1 =>
      let bid := browserIdOf browser
      (.ok browser,
       { pool := p1, activeBrowsers := dictInsert bid browser bm.activeBrowsers })

/-- `BrowserManager.release_browser(browser_id)`: `False` for an id not in
`_active_browsers`; otherwise runs the browser cleanup and forwards to
`ResourcePool.release(browser, browser_id)`, dropping the active entry only
when the pool reports success. -/
def BrowserManager.releaseBrowser (bm : BrowserManager) (browserId : String) :
    Bool × BrowserManager :=
  match dictFind browserId bm.activeBrowsers with
  | none => (false, bm)
  | some browser =>
      let res := bm.pool.release browser (some browserId)
      if res.1 then
        (true, { pool := res.2, activeBrowsers := dictRemove browserId bm.activeBrowsers })
      else (false, { bm with pool := res.2 })

/-! ### TaskScheduler (src/backend/src/scraper/scheduler.py)

The scheduler's own `circuitbreaker` instance is external library state;
only whether it currently reports the Open state matters to the claims, so
it is carried as the boolean `breakerOpen`.  The APScheduler job object is
not observable through the claims and is elided from the task entry. -/

/-- One `_active_tasks` entry (config dict and status string). -/
structure TaskEntry where
  taskConfig : Dict String String
  status : String
deriving DecidableEq, Repr

structure TaskScheduler where
  bm : BrowserManager
  activeTasks : Dict String TaskEntry
  breakerOpen : Bool
deriving DecidableEq, Repr

/-- `TaskScheduler.schedule_task(task_id, task_config)`: raises
`ValueError` when the config is falsy or has no `"url"` key (the `except`
logs and re-raises it); returns `False` when the circuit breaker is Open or
the id is already scheduled; otherwise records the task and returns
`True`. -/
def TaskScheduler.scheduleTask (s : TaskScheduler) (taskId : String)
    (taskConfig : Dict String String) : PyResult Bool × TaskScheduler :=
  if taskConfig = [] ∨ (dictFind "url" taskConfig).isNone then
    (.exn "ValueError: Invalid task configuration", s)
  else if s.breakerOpen then (.ok false, s)
  else if (dictFind taskId s.activeTasks).isSome then (.ok false, s)
  else
    (.ok true,
     { s with activeTasks :=
        dictInsert taskId ⟨taskConfig, "scheduled"⟩ s.activeTasks })

/-- `TaskScheduler.execute_task(task_id)`: raises when the breaker is Open
or the task is unknown (no browser was acquired, so the `finally` block
releases nothing); otherwise acquires a browser, runs the (placeholder)
scraping body, marks the task completed, and in `finally` calls
`release_browser(str(id(browser)))`. -/
def TaskScheduler.executeTask (s : TaskScheduler) (taskId : String) :
    PyResult String × TaskScheduler :=
  if s.breakerOpen then (.exn "RuntimeError: Circuit breaker open", s)
  else
    match dictFind taskId s.activeTasks with
    | none => (.exn "RuntimeError: task not found", s)
    | some entry =>
        let s1 : TaskScheduler :=
          { s with activeTasks :=
              dictInsert taskId { entry with status := "running" } s.activeTasks }
        match s1.bm.getBrowser with
        | (.exn e, bm1) => (.exn e, { s1 with bm := bm1 })
        | (.ok browser, bm1) =>
            let s2 : TaskScheduler :=
              { s1 with bm := bm1
                        activeTasks :=
                          dictInsert taskId { entry with status := "completed" }
                            s1.activeTasks }
            let rel := s2.bm.releaseBrowser (browserIdOf browser)
            (.ok "completed", { s2 with bm := rel.2 })


/-! ### Helper lemmas -/

theorem dictFind_dictUpdate [DecidableEq α] (k : α) (f : β → β) (l : Dict α β) :
    dictFind k (dictUpdate k f l) = (dictFind k l).map f := by
  induction l with
  | nil => simp [dictFind, dictUpdate]
  | cons a rest ih =>
      obtain ⟨k', v⟩ := a
      by_cases hk : k' = k
      · simp [dictUpdate, dictFind, hk]
      · simp [dictUpdate, dictFind, hk, ih]

theorem dictFind_dictUpdate_none [DecidableEq α] (k : α) (f : β → β) (l : Dict α β)
    (h : dictFind k l = none) : dictUpdate k f l = l := by
  induction l with
  | nil => rfl
  | cons a rest ih =>
      obtain ⟨k', v⟩ := a
      by_cases hk : k' = k
      · simp [dictFind, hk] at h
      · simp only [dictFind, if_neg hk] at h
        simp [dictUpdate, hk, ih h]

theorem dictFind_filter_ne [DecidableEq α] (k : α) (l : Dict α β) :
    dictFind k (l.filter fun e => decide (e.1 ≠ k)) = none := by
  induction l with
  | nil => simp [dictFind]
  | cons a rest ih =>
      obtain ⟨k', v⟩ := a
      by_cases hk : k' = k
      · simpa [List.filter_cons, hk] using ih
      · simpa [List.filter_cons, hk, dictFind] using ih

theorem mem_keys_dictInsert [DecidableEq α] (a k : α) (v : β) (l : Dict α β)
    (h : a ∈ (dictInsert k v l).map Prod.fst) :
    a = k ∨ a ∈ l.map Prod.fst := by
  induction l with
  | nil => simpa [dictInsert] using h
  | cons x rest ih =>
      obtain ⟨k', v'⟩ := x
      simp only [dictInsert] at h
      simp only [List.map_cons, List.mem_cons]
      split at h
      · simp only [List.map_cons, List.mem_cons] at h
        tauto
      · simp only [List.map_cons, List.mem_cons] at h
        rcases h with h1 | h1
        · tauto
        · rcases ih h1 with h2 | h2 <;> tauto

theorem keys_nodup_dictInsert [DecidableEq α] (k : α) (v : β) (l : Dict α β)
    (h : (l.map Prod.fst).Nodup) :
    ((dictInsert k v l).map Prod.fst).Nodup := by
  induction l with
  | nil => simp [dictInsert]
  | cons x rest ih =>
      obtain ⟨k', v'⟩ := x
      simp only [List.map_cons, List.nodup_cons] at h
      simp only [dictInsert]
      split
      · rename_i hcond
        subst hcond
        simpa [List.nodup_cons] using h
      · rename_i hcond
        simp only [List.map_cons, List.nodup_cons]
        refine ⟨fun hmem => ?_, ih h.2⟩
        rcases mem_keys_dictInsert k' k v rest hmem with h1 | h1
        · exact hcond h1
        · exact h.1 h1

theorem dictFind_dictInsert_self [DecidableEq α] (k : α) (v : β) (l : Dict α β) :
    dictFind k (dictInsert k v l) = some v := by
  induction l with
  | nil => simp [dictInsert, dictFind]
  | cons a rest ih =>
      obtain ⟨k', v'⟩ := a
      by_cases hk : k' = k
      · simp [dictInsert, dictFind, hk]
      · simp [dictInsert, dictFind, hk, ih]

theorem checkRateLimit_live (c : RLConfig) (t k exp e : Nat) (h : t < exp) :
    (checkRateLimit c true t (some ⟨k, exp⟩) e).1.allowed = decide (k < c.burstLimit)
    ∧ (checkRateLimit c true t (some ⟨k, exp⟩) e).2.1
        = if k < c.burstLimit then some ⟨k + 1, exp⟩ else some ⟨k, exp⟩ := by
  have hexp : ¬ exp ≤ t := by omega
  by_cases hk : k < c.burstLimit
  · simp [checkRateLimit, rateLua, hexp, hk]
  · by_cases hbl : c.burstLimit = 0
    · simp [checkRateLimit, rateLua, hexp, hk, hbl]
    · simp [checkRateLimit, rateLua, hexp, hk, hbl]

theorem allowedCount_live_le (c : RLConfig) (ts : List Nat) (k exp : Nat)
    (hk : 1 ≤ k) (hts : ∀ t ∈ ts, t < exp) :
    allowedCount c ts (some ⟨k, exp⟩) ≤ c.burstLimit - k := by
  induction ts generalizing k with
  | nil => simp [allowedCount]
  | cons t ts ih =>
      have ht : t < exp := hts t (List.mem_cons_self _ _)
      have hts2 : ∀ u ∈ ts, u < exp := fun u hu => hts u (List.mem_cons_of_mem _ hu)
      have hstep := checkRateLimit_live c t k exp 0 ht
      simp only [allowedCount, hstep.1, hstep.2]
      by_cases hk2 : k < c.burstLimit
      · have hrec := ih (k + 1) (by omega) hts2
        simp only [if_pos hk2]
        simp [hk2]
        omega
      · have hrec := ih k hk hts2
        simp only [if_neg hk2]
        simp [hk2]
        omega

theorem allowedCount_window (c : RLConfig) (t0 : Nat) (ts : List Nat)
    (hts : ∀ t ∈ ts, t < t0 + c.window) :
    allowedCount c (t0 :: ts) none ≤ max c.burstLimit 1 := by
  have h1 : (checkRateLimit c true t0 none 0).1.allowed = true := rfl
  have h2 : (checkRateLimit c true t0 none 0).2.1 = some ⟨1, t0 + c.window⟩ := rfl
  have hrec := allowedCount_live_le c ts 1 (t0 + c.window) (le_refl 1) hts
  simp only [allowedCount, h1, h2, if_true]
  omega

theorem burstLimit_five : RLConfig.burstLimit ⟨5, 60, 0⟩ = 5 := by
  norm_num [RLConfig.burstLimit]
  rfl

theorem pickBest_eq_none_iff (l : Dict String (ProxyMetrics × CircuitBreaker)) :
    pickBest l = none ↔ l = [] := by
  cases l with
  | nil => simp [pickBest]
  | cons a xs =>
      simp only [pickBest]
      cases pickBest xs with
      | none => simp
      | some y => dsimp only; split <;> simp

theorem pickBest_spec (l : Dict String (ProxyMetrics × CircuitBreaker))
    (x : String × ProxyMetrics × CircuitBreaker) (h : pickBest l = some x) :
    ∃ l₁ l₂, l = l₁ ++ x :: l₂
      ∧ (∀ e ∈ l, e.2.1.healthScore ≤ x.2.1.healthScore)
      ∧ ∀ e ∈ l₁, e.2.1.healthScore < x.2.1.healthScore := by
  induction l generalizing x with
  | nil => simp [pickBest] at h
  | cons a xs ih =>
      rw [pickBest] at h
      cases hxs : pickBest xs with
      | none =>
          rw [hxs] at h
          obtain rfl : a = x := by simpa using h
          obtain rfl : xs = [] := (pickBest_eq_none_iff xs).1 hxs
          exact ⟨[], [], rfl, by simp, by simp⟩
      | some y =>
          rw [hxs] at h
          simp only at h
          obtain ⟨l₁, l₂, heq, hall, hpre⟩ := ih y hxs
          by_cases hlt : a.2.1.healthScore < y.2.1.healthScore
          · rw [if_pos hlt] at h
            obtain rfl : y = x := by simpa using h
            refine ⟨a :: l₁, l₂, by simp [heq], ?_, ?_⟩
            · intro e he
              rcases List.mem_cons.1 he with rfl | he
              · exact le_of_lt hlt
              · exact hall e he
            · intro e he
              rcases List.mem_cons.1 he with rfl | he
              · exact hlt
              · exact hpre e he
          · rw [if_neg hlt] at h
            obtain rfl : a = x := by simpa using h
            refine ⟨[], xs, rfl, ?_, by simp⟩
            intro e he
            rcases List.mem_cons.1 he with rfl | he
            · exact le_refl _
            · exact le_trans (hall e he) (not_lt.1 hlt)

/-! ### Claim theorems -/

/-- C1 counterexample: the claim says an unreachable counter store makes
`check_rate_limit` fail open (`allowed = true`); at the default
configuration with the cache down, the call in fact returns
`allowed = false`. -/
theorem checkRateLimit_cache_down_not_fail_open :
    (checkRateLimit ⟨1000, 60, mkRat 5 100⟩ false 7 none 0).1.allowed = false
    ∧ (checkRateLimit ⟨1000, 60, mkRat 5 100⟩ false 7 none 0).2.2 = 1 :=
  ⟨rfl, rfl⟩

/-- C1 (amended): when the counter store is unreachable or raises,
`check_rate_limit` fails closed — it returns `allowed = false` with
`backoff = DEFAULT_WINDOW_SECONDS`, leaves the counter state untouched, and
records the degraded condition by incrementing the `rate_limit_errors`
metric (the code comment reads "Fail closed on errors"). -/
theorem checkRateLimit_cache_down_fails_closed (c : RLConfig) (now : Nat)
    (st : Option RLEntry) (errCount : Nat) :
    checkRateLimit c false now st errCount
      = (⟨false, 0, some (DEFAULT_WINDOW_SECONDS : ℚ)⟩, st, errCount + 1) := rfl

/-- C2: for a pool of `max_size = 1`, an `acquire` that times out while the
single resource is held releases a semaphore slot that was never taken (the
`except` block runs `self._semaphore.release()` on the timeout path), after
which a further `acquire` succeeds and two resources are simultaneously in
use — the bounded-concurrency invariant `in-use ≤ N` is violated, and the
timed-out call did not leave the available capacity unchanged. -/
theorem resourcePool_timeout_capacity_leak :
    (ResourcePool.init 1).maxSize = 1
    ∧ (ResourcePool.init 1).acquire (some "a")
        = .ok 0 ⟨1, 0, [], [(some "a", 0)], 1⟩
    ∧ (⟨1, 0, [], [(some "a", 0)], 1⟩ : ResourcePool).acquire (some "b")
        = .timeout ⟨1, 1, [], [(some "a", 0)], 1⟩
    ∧ (⟨1, 1, [], [(some "a", 0)], 1⟩ : ResourcePool).acquire (some "c")
        = .ok 1 ⟨1, 0, [], [(some "a", 0), (some "c", 1)], 2⟩
    ∧ (⟨1, 0, [], [(some "a", 0), (some "c", 1)], 2⟩ : ResourcePool).inUse.length = 2 := by
  decide

/-- C9: `ResourcePool.release` with a `resource_id` that is not in the
in-use map returns `False` and leaves the pool — idle set, in-use map and
semaphore counter — exactly as it was. -/
theorem resourcePool_release_unknown_noop (p : ResourcePool) (r : Nat)
    (rid : Option String) (h : dictFind rid p.inUse = none) :
    p.release r rid = (false, p) := by
  unfold ResourcePool.release
  rw [h]

/-- Witness for C9 at a concrete pool. -/
theorem resourcePool_release_unknown_noop_witness :
    dictFind (some "x") (ResourcePool.init 2).inUse = none
    ∧ (ResourcePool.init 2).release 7 (some "x") = (false, ResourcePool.init 2) :=
  ⟨rfl, resourcePool_release_unknown_noop (ResourcePool.init 2) 7 (some "x") rfl⟩

/-- C10: `TaskPool.acquire` returns a boolean for every input — the
surrounding handler converts each raised exception into `False` — with
`False` for an empty task id, for a task id already holding a slot, and
when the underlying pool acquisition times out; a `True` result means a
slot is now recorded for the task id, and distinctness of the recorded task
ids is preserved, so each task id holds at most one slot. -/
theorem taskPool_acquire_never_raises (tp : TaskPool) (taskId : String) :
    (taskId = "" → tp.acquire taskId = (false, tp))
    ∧ ((dictFind taskId tp.metadata).isSome → tp.acquire taskId = (false, tp))
    ∧ (∀ p1, taskId ≠ "" → dictFind taskId tp.metadata = none →
        tp.pool.acquire (some taskId) = .timeout p1 →
        tp.acquire taskId = (false, { tp with pool := p1 }))
    ∧ (∀ msg, (tp.acquireBody taskId).1 = .exn msg → (tp.acquire taskId).1 = false)
    ∧ ((tp.acquire taskId).1 = true →
        (dictFind taskId (tp.acquire taskId).2.metadata).isSome = true)
    ∧ ((tp.metadata.map Prod.fst).Nodup →
        (((tp.acquire taskId).2.metadata).map Prod.fst).Nodup) := by
  refine ⟨fun h => ?_, fun h => ?_, fun p1 h1 h2 h3 => ?_, fun msg h => ?_, ?_, ?_⟩
  · simp [TaskPool.acquire, TaskPool.acquireBody, h]
  · by_cases he : taskId = ""
    · simp [TaskPool.acquire, TaskPool.acquireBody, he]
    · simp [TaskPool.acquire, TaskPool.acquireBody, he, h]
  · simp [TaskPool.acquire, TaskPool.acquireBody, h1, h2, h3]
  · unfold TaskPool.acquire
    rcases hb : tp.acquireBody taskId with ⟨r, tp1⟩
    cases r with
    | ok b => rw [hb] at h; simp at h
    | exn msg2 => simp
  · by_cases he : taskId = ""
    · simp [TaskPool.acquire, TaskPool.acquireBody, he]
    · by_cases hdup : (dictFind taskId tp.metadata).isSome
      · simp [TaskPool.acquire, TaskPool.acquireBody, he, hdup]
      · cases hpa : tp.pool.acquire (some taskId) with
        | timeout p1 =>
            simp [TaskPool.acquire, TaskPool.acquireBody, he, hdup, hpa]
        | ok r p1 =>
            simp [TaskPool.acquire, TaskPool.acquireBody, he, hdup, hpa,
              dictFind_dictInsert_self]
  · intro hnd
    by_cases he : taskId = ""
    · simpa [TaskPool.acquire, TaskPool.acquireBody, he] using hnd
    · by_cases hdup : (dictFind taskId tp.metadata).isSome
      · simpa [TaskPool.acquire, TaskPool.acquireBody, he, hdup] using hnd
      · cases hpa : tp.pool.acquire (some taskId) with
        | timeout p1 =>
            simpa [TaskPool.acquire, TaskPool.acquireBody, he, hdup, hpa] using hnd
        | ok r p1 =>
            simp [TaskPool.acquire, TaskPool.acquireBody, he, hdup, hpa]
            exact keys_nodup_dictInsert taskId r tp.metadata hnd

/-- Witness for C10: a zero-capacity pool times out and the acquire call
still returns `False` (with the semaphore counter leaked to 1). -/
theorem taskPool_acquire_never_raises_witness :
    ("t" : String) ≠ ""
    ∧ dictFind "t" (TaskPool.init 0).metadata = none
    ∧ (TaskPool.init 0).pool.acquire (some "t") = .timeout ⟨0, 1, [], [], 0⟩
    ∧ (TaskPool.init 0).acquire "t" = (false, ⟨⟨0, 1, [], [], 0⟩, []⟩) :=
  ⟨by decide, rfl, by decide,
    (taskPool_acquire_never_raises (TaskPool.init 0) "t").2.2.1
      ⟨0, 1, [], [], 0⟩ (by decide) rfl (by decide)⟩

/-- Concrete scheduler for C3: one scheduled task, breaker closed, browser
pool of size 1. -/
def schedRun : TaskScheduler :=
  ⟨BrowserManager.init 1, [("t", ⟨[("url", "u")], "scheduled"⟩)], false⟩

/-- C3: executing a task completes, but the browser handle is **not**
returned: `get_browser` stores the pool slot under `resource_id = None`
(it never passes a resource id) while `release_browser` releases under the
generated `str(id(browser))`, so the pool lookup fails, `release_browser`
returns `False`, the active-browser map keeps its entry and the pool
capacity (semaphore 0, in-use entry under `None`) is not restored to its
prior state (semaphore 1, no active browsers). -/
theorem executeTask_browser_slot_leak :
    (schedRun.executeTask "t").1 = .ok "completed"
    ∧ (schedRun.executeTask "t").2.bm.activeBrowsers = [("0", 0)]
    ∧ (schedRun.executeTask "t").2.bm.pool.semValue = 0
    ∧ (schedRun.executeTask "t").2.bm.pool.inUse = [(none, 0)]
    ∧ schedRun.bm.pool.semValue = 1
    ∧ schedRun.bm.activeBrowsers = []
    ∧ ((schedRun.bm.getBrowser.2).releaseBrowser (browserIdOf 0)).1 = false := by
  decide

/-- Concrete scheduler for C4: one scheduled task `"t"`, breaker closed. -/
def schedDup : TaskScheduler :=
  ⟨BrowserManager.init 1, [("t", ⟨[("url", "u")], "scheduled"⟩)], false⟩

/-- C4 counterexample: for a configuration with no target url,
`schedule_task` raises `ValueError` (as its docstring states) instead of
returning `false`. -/
theorem scheduleTask_invalid_config_raises :
    (schedDup.scheduleTask "t2" []).1 = .exn "ValueError: Invalid task configuration"
    ∧ ∀ b : Bool, (schedDup.scheduleTask "t2" []).1 ≠ .ok b := by
  decide

/-- C4 (amended): `schedule_task` returns `false` — without mutating any
state, in particular leaving a duplicate id's stored entry untouched — when
the circuit breaker is Open or the task id already exists; but a
configuration failing basic validation (empty, or no `"url"` key) makes it
raise `ValueError` rather than return `false`. -/
theorem scheduleTask_expected_rejections (s : TaskScheduler) (taskId : String)
    (cfg : Dict String String) :
    ((cfg = [] ∨ dictFind "url" cfg = none) →
      s.scheduleTask taskId cfg = (.exn "ValueError: Invalid task configuration", s))
    ∧ (cfg ≠ [] → dictFind "url" cfg ≠ none → s.breakerOpen = true →
        s.scheduleTask taskId cfg = (.ok false, s))
    ∧ (cfg ≠ [] → dictFind "url" cfg ≠ none → s.breakerOpen = false →
        (dictFind taskId s.activeTasks).isSome →
        s.scheduleTask taskId cfg = (.ok false, s)) := by
  refine ⟨fun h => ?_, fun h1 h2 h3 => ?_, fun h1 h2 h3 h4 => ?_⟩
  · rcases h with h | h <;> simp [TaskScheduler.scheduleTask, h]
  · simp [TaskScheduler.scheduleTask, h1, h2, h3]
  · simp [TaskScheduler.scheduleTask, h1, h2, h3, h4]

/-- Witness for C4 at a concrete scheduler with a duplicate task id. -/
theorem scheduleTask_expected_rejections_witness :
    ([("url", "u")] : Dict String String) ≠ []
    ∧ dictFind "url" ([("url", "u")] : Dict String String) ≠ none
    ∧ schedDup.breakerOpen = false
    ∧ (dictFind "t" schedDup.activeTasks).isSome
    ∧ schedDup.scheduleTask "t" [("url", "u")] = (.ok false, schedDup) :=
  ⟨by decide, by decide, rfl, by decide,
    (scheduleTask_expected_rejections schedDup "t" [("url", "u")]).2.2
      (by decide) (by decide) rfl (by decide)⟩

/-- C7 counterexample: the claimed general bound "admitted count within a
window never exceeds `limit × (1 + burst_multiplier)`" fails at
`limit = 0`: the burst limit floors to `0`, yet the first call of the
window is always admitted, so one request is admitted where the claimed
bound is zero. -/
theorem rateLimit_zero_burst_limit_overadmission :
    (checkRateLimit ⟨0, 60, 0⟩ true 0 none 0).1.allowed = true
    ∧ RLConfig.burstLimit ⟨0, 60, 0⟩ = 0
    ∧ allowedCount ⟨0, 60, 0⟩ [0] none = 1
    ∧ ((1 : ℚ) > (0 : ℚ) * (1 + 0)) :=
  ⟨rfl, by norm_num [RLConfig.burstLimit], rfl, by norm_num⟩

/-- C7 (amended): with `limit = 5`, `burst = 0`, the first five calls in a
window are admitted and the sixth is rejected; at the moment the window
expires (`setex` TTL lapsed) a call is admitted again on a fresh counter;
and in general the number of admitted calls whose times fall inside one
window is at most `max burst_limit 1` — the claimed bound
`limit × (1 + burst_multiplier)` holds whenever the burst limit is at least
one, and one first call per window is admitted even when it is zero. -/
theorem rateLimit_scenario_and_window_bound :
    ((runChecks ⟨5, 60, 0⟩ [0, 0, 0, 0, 0, 0] none).1
        = [true, true, true, true, true, false]
      ∧ (runChecks ⟨5, 60, 0⟩ [0, 0, 0, 0, 0, 0] none).2 = some ⟨5, 60⟩
      ∧ (checkRateLimit ⟨5, 60, 0⟩ true 60 (some ⟨5, 60⟩) 0).1.allowed = true)
    ∧ ∀ (c : RLConfig) (t0 : Nat) (ts : List Nat),
        (∀ t ∈ ts, t < t0 + c.window) →
        allowedCount c (t0 :: ts) none ≤ max c.burstLimit 1 := by
  constructor
  · refine ⟨?_, ?_, ?_⟩ <;>
      simp [runChecks, checkRateLimit, rateLua, burstLimit_five]
  · exact allowedCount_window

/-- Witness for C7's window bound at a concrete call sequence. -/
theorem rateLimit_scenario_and_window_bound_witness :
    (∀ t ∈ [3, 7, 12], t < 0 + (⟨5, 60, 0⟩ : RLConfig).window)
    ∧ allowedCount ⟨5, 60, 0⟩ (0 :: [3, 7, 12]) none
        ≤ max (RLConfig.burstLimit ⟨5, 60, 0⟩) 1 :=
  ⟨by decide,
    rateLimit_scenario_and_window_bound.2 ⟨5, 60, 0⟩ 0 [3, 7, 12] (by decide)⟩

/-- Concrete registry for C5: two healthy proxies with equal (perfect)
health scores, the first used at time 10, the second never used. -/
def proxyStale : ProxyMetrics := ⟨0, 0, 0, 10, 0, 1⟩

/-- The never-used proxy of the C5 registry. -/
def proxyIdle : ProxyMetrics := ⟨0, 0, 0, 0, 0, 1⟩

/-- The C5 tie registry: `"p1"` (last used at 10) before `"p2"` (never
used). -/
def svcTie : ProxyService :=
  ⟨2, [("p1", proxyStale, mkProxyBreaker), ("p2", proxyIdle, mkProxyBreaker)]⟩

/-- C5 counterexample: with two equally-scored healthy proxies, the claim
says the least-recently-used one (`"p2"`, never used) is returned, but
`get_proxy` (Python `max`, which keeps the first maximal element) returns
`"p1"` even though `"p1"` was used more recently. -/
theorem getProxy_tie_breaks_by_order_not_lru :
    (svcTie.getProxy 100).toOption.map (fun r => r.1) = some "p1"
    ∧ (pickBestLRU (svcTie.healthyProxies 100)).map (fun e => e.1) = some "p2"
    ∧ proxyStale.healthScore = proxyIdle.healthScore
    ∧ proxyIdle.lastUsed < proxyStale.lastUsed := by
  decide

/-- C5 (amended): `get_proxy` considers exactly the proxies whose breaker
is not Open and whose health score is at least the success threshold; it
raises precisely when none qualifies; and among the survivors it returns
the **first (in registry order)** proxy attaining the maximal health score
— ties are broken by registry iteration order, not by
least-recently-used. -/
theorem getProxy_filters_and_picks_first_max (s : ProxyService) (now : Nat) :
    (∀ e, e ∈ s.healthyProxies now ↔
        e ∈ s.proxies ∧ e.2.2.isOpen now = false
          ∧ PROXY_SUCCESS_THRESHOLD ≤ e.2.1.healthScore)
    ∧ ((∃ msg, s.getProxy now = .error msg) ↔ s.healthyProxies now = [])
    ∧ ∀ url s2, s.getProxy now = .ok (url, s2) →
        ∃ m cb l₁ l₂,
          s.healthyProxies now = l₁ ++ (url, m, cb) :: l₂
          ∧ (∀ e ∈ s.healthyProxies now, e.2.1.healthScore ≤ m.healthScore)
          ∧ ∀ e ∈ l₁, e.2.1.healthScore < m.healthScore := by
  refine ⟨fun e => ?_, ?_, fun url s2 h => ?_⟩
  · simp [ProxyService.healthyProxies, List.mem_filter, and_assoc]
  · cases hp : pickBest (s.healthyProxies now) with
    | none =>
        simp only [ProxyService.getProxy, hp]
        simpa using (pickBest_eq_none_iff _).1 hp
    | some e =>
        simp only [ProxyService.getProxy, hp]
        constructor
        · rintro ⟨msg, hmsg⟩
          simp at hmsg
        · intro hnil
          rw [hnil] at hp
          simp [pickBest] at hp
  · rw [ProxyService.getProxy] at h
    cases hp : pickBest (s.healthyProxies now) with
    | none => rw [hp] at h; simp at h
    | some e =>
        rw [hp] at h
        simp only [Except.ok.injEq, Prod.mk.injEq] at h
        obtain ⟨hurl, -⟩ := h
        obtain ⟨l₁, l₂, heq, hall, hpre⟩ := pickBest_spec _ e hp
        refine ⟨e.2.1, e.2.2, l₁, l₂, ?_, ?_, ?_⟩
        · rw [heq, ← hurl]
        · intro q hq; exact hall q hq
        · intro q hq; exact hpre q hq

/-- One-proxy registry used for the C5 witness. -/
def svcSel : ProxyService := ⟨2, [("p1", ProxyMetrics.fresh, mkProxyBreaker)]⟩

/-- The C5 witness registry after `get_proxy` stamps `last_used := 5`. -/
def svcSel1 : ProxyService := ⟨2, [("p1", ⟨0, 0, 0, 5, 0, 1⟩, mkProxyBreaker)]⟩

/-- Witness for C5 at a concrete registry. -/
theorem getProxy_filters_and_picks_first_max_witness :
    svcSel.getProxy 5 = .ok ("p1", svcSel1)
    ∧ ∃ m cb l₁ l₂,
        svcSel.healthyProxies 5 = l₁ ++ ("p1", m, cb) :: l₂
        ∧ (∀ e ∈ svcSel.healthyProxies 5, e.2.1.healthScore ≤ m.healthScore)
        ∧ ∀ e ∈ l₁, e.2.1.healthScore < m.healthScore :=
  ⟨by decide,
    (getProxy_filters_and_picks_first_max svcSel 5).2.2 "p1" svcSel1 (by decide)⟩

/-- One-proxy registry used for C6 (`poolSize = 1`, fresh metrics, the
breaker `_add_proxy` builds). -/
def svcOne : ProxyService := ⟨1, [("p", ProxyMetrics.fresh, mkProxyBreaker)]⟩

/-- C6 counterexample: after `report_failure` opens the proxy's breaker the
proxy is removed from the registry outright; at time 301 — after the
300-second `recovery_timeout` has elapsed — recording a health-check
success for it is a no-op (its metrics entry is gone), and `get_proxy`
still does not return it: it never becomes eligible again, contrary to the
claim. -/
theorem openProxy_removed_never_reeligible :
    (svcOne.reportFailure "p" 0 none).proxies = []
    ∧ ((svcOne.reportFailure "p" 0 none).recordSuccess "p" 1 301)
        = svcOne.reportFailure "p" 0 none
    ∧ ((svcOne.reportFailure "p" 0 none).recordSuccess "p" 1 301).getProxy 301
        = .error "No healthy proxies available"
    ∧ mkProxyBreaker.recoveryTimeout = 300 := by
  decide

/-- C6 (amended): a proxy whose circuit breaker opens during
`report_failure` is removed from the registry at once, and is therefore
excluded from every subsequent `get_proxy` result (`get_proxy` only ever
returns registered proxies, and success reports for unregistered urls do
not change the registry): it does not become eligible again after
`recovery_timeout` plus a health-check success, and can only re-enter the
pool as a freshly added proxy. -/
theorem proxy_breaker_open_removal :
    (∀ (s : ProxyService) (url : String) (now : Nat)
        (m : ProxyMetrics) (cb : CircuitBreaker),
      dictFind url s.proxies = some (m, cb) →
      (cb.recordFailure now).isOpen now = true →
      dictFind url (s.reportFailure url now none).proxies = none)
    ∧ (∀ (s : ProxyService) (now : Nat) (url : String) (s2 : ProxyService),
        s.getProxy now = .ok (url, s2) →
        ∃ m cb, (url, m, cb) ∈ s.proxies)
    ∧ ∀ (s : ProxyService) (url : String) (d : ℚ) (now : Nat),
        dictFind url s.proxies = none →
        s.recordSuccess url d now = s := by
  refine ⟨fun s url now m cb hfind hopen => ?_, fun s now url s2 h => ?_,
    fun s url d now hfind => ?_⟩
  · have h1 : dictFind url (s.recordFailure url).proxies
        = some (m.recFailure, cb) := by
      simp [ProxyService.recordFailure, ProxyService.updateMetrics,
        dictFind_dictUpdate, hfind]
    simp only [ProxyService.reportFailure, h1, hopen, if_true, ite_self]
    simp only [ProxyService.removeProxy]
    simpa using dictFind_filter_ne url (s.recordFailure url).proxies
  · rw [ProxyService.getProxy] at h
    cases hp : pickBest (s.healthyProxies now) with
    | none => rw [hp] at h; simp at h
    | some e =>
        rw [hp] at h
        simp only [Except.ok.injEq, Prod.mk.injEq] at h
        obtain ⟨hurl, -⟩ := h
        obtain ⟨l₁, l₂, heq, -, -⟩ := pickBest_spec _ e hp
        have hmem : e ∈ s.healthyProxies now := by
          rw [heq]; exact List.mem_append_right _ (List.mem_cons_self _ _)
        have hmem2 : e ∈ s.proxies := List.mem_of_mem_filter hmem
        exact ⟨e.2.1, e.2.2,
          by rwa [show (url, e.2.1, e.2.2) = e from by rw [← hurl]]⟩
  · have h2 := dictFind_dictUpdate_none url
      (fun p : ProxyMetrics × CircuitBreaker => (p.1.recSuccess d now, p.2))
      s.proxies hfind
    simp [ProxyService.recordSuccess, ProxyService.updateMetrics, h2]

/-- Witness for C6 at the one-proxy registry: the first failure opens the
breaker (threshold 0.85 ≤ 1) and the proxy is removed. -/
theorem proxy_breaker_open_removal_witness :
    dictFind "p" svcOne.proxies = some (ProxyMetrics.fresh, mkProxyBreaker)
    ∧ (mkProxyBreaker.recordFailure 0).isOpen 0 = true
    ∧ dictFind "p" (svcOne.reportFailure "p" 0 none).proxies = none :=
  ⟨by decide, by decide,
    proxy_breaker_open_removal.1 svcOne "p" 0 ProxyMetrics.fresh mkProxyBreaker
      (by decide) (by decide)⟩

/-- C8: after a success report the tracked proxy's metrics hold
`health_score = success/(success+failure)` recomputed from the updated
counts, a value in `[0, 1]`; likewise after a failure report; and a freshly
added proxy starts with health score 1. -/
theorem healthScore_ratio_invariant (s : ProxyService) (url : String) (d : ℚ)
    (now : Nat) (m : ProxyMetrics) (cb : CircuitBreaker)
    (h : dictFind url s.proxies = some (m, cb)) :
    (dictFind url (s.recordSuccess url d now).proxies = some (m.recSuccess d now, cb)
      ∧ (m.recSuccess d now).healthScore
          = ((m.recSuccess d now).successCount : ℚ)
              / (((m.recSuccess d now).successCount : ℚ)
                  + ((m.recSuccess d now).failureCount : ℚ))
      ∧ 0 ≤ (m.recSuccess d now).healthScore
      ∧ (m.recSuccess d now).healthScore ≤ 1)
    ∧ (dictFind url (s.recordFailure url).proxies = some (m.recFailure, cb)
      ∧ m.recFailure.healthScore
          = (m.recFailure.successCount : ℚ)
              / ((m.recFailure.successCount : ℚ) + (m.recFailure.failureCount : ℚ))
      ∧ 0 ≤ m.recFailure.healthScore
      ∧ m.recFailure.healthScore ≤ 1)
    ∧ ProxyMetrics.fresh.healthScore = 1 := by
  refine ⟨⟨?_, rfl, ?_, ?_⟩, ⟨?_, rfl, ?_, ?_⟩, rfl⟩
  · simp [ProxyService.recordSuccess, ProxyService.updateMetrics,
      dictFind_dictUpdate, h]
  · simp only [ProxyMetrics.recSuccess]
    positivity
  · simp only [ProxyMetrics.recSuccess]
    rw [div_le_one (by positivity)]
    push_cast
    linarith [Nat.cast_nonneg (α := ℚ) m.failureCount]
  · simp [ProxyService.recordFailure, ProxyService.updateMetrics,
      dictFind_dictUpdate, h]
  · simp only [ProxyMetrics.recFailure]
    positivity
  · simp only [ProxyMetrics.recFailure]
    rw [div_le_one (by positivity)]
    push_cast
    linarith [Nat.cast_nonneg (α := ℚ) m.successCount,
      Nat.cast_nonneg (α := ℚ) m.failureCount]

/-- One-proxy registry used for the C8 witness. -/
def svcHealth : ProxyService := ⟨1, [("p", ProxyMetrics.fresh, mkProxyBreaker)]⟩

/-- Witness for C8 at a concrete registry. -/
theorem healthScore_ratio_invariant_witness :
    dictFind "p" svcHealth.proxies = some (ProxyMetrics.fresh, mkProxyBreaker)
    ∧ 0 ≤ ProxyMetrics.fresh.recFailure.healthScore
    ∧ ProxyMetrics.fresh.recFailure.healthScore ≤ 1 :=
  ⟨by decide,
    (healthScore_ratio_invariant svcHealth "p" 1 5 ProxyMetrics.fresh
      mkProxyBreaker (by decide)).2.1.2.2.1,
    (healthScore_ratio_invariant svcHealth "p" 1 5 ProxyMetrics.fresh
      mkProxyBreaker (by decide)).2.1.2.2.2⟩

end Arkimedes
